import Mathlib

/-!
Verification of the PostGraphile websocket subscription transport
(`src/postgraphile/http/subscriptions.ts`), shallowly embedded in Lean.

Conventions of the embedding:
- JavaScript objects used as string-keyed maps become Lean functions
  `String → Option _` (a slot holding `null` or `undefined` is `none`:
  the source only ever tests these slots for truthiness).
- A `Deferred` promise handle is identified by a natural number drawn from
  a monotone supply; `resolve()` calls on a handle are counted so that
  "resolved exactly once" is a provable statement.
- Async control flow is lifted to explicit state passing; where interleaving
  of concurrent async calls matters (the middleware bridge), a small-step
  machine over per-call program counters makes the suspension points of the
  source explicit.
-/

namespace Subscriptions

/-! ## Context Lifecycle Registry

Embeds `keepalivePromisesByContextKey`, `contextKey`,
`releaseContextForSocketAndOpId` and `addContextForSocketAndOpId`
(subscriptions.ts lines 66-84). -/

/-- State of the registry: `slots` is `keepalivePromisesByContextKey`
(`none` covers both an absent key and a key set to `null`); `resolved h`
counts how many times handle `h` had its `resolve()` called; `contextOf h`
is the `promise['context']` field; `nextHandle` is the supply of fresh
deferred handles. -/
structure RegistryState where
  slots : String → Option Nat
  resolved : Nat → Nat
  contextOf : Nat → Option String
  nextHandle : Nat

/-- The registry starts empty: no slots, no handle ever resolved. -/
def initRegistry : RegistryState where
  slots := fun _ => none
  resolved := fun _ => 0
  contextOf := fun _ => none
  nextHandle := 0

/-- Embeds `contextKey` (line 68): `ws['postgraphileId'] + '|' + opId`
(JavaScript number-plus-string concatenation). -/
def contextKey (socketId : Nat) (opId : String) : String :=
  toString socketId ++ "|" ++ opId

/-- Embeds `releaseContextForSocketAndOpId` (lines 70-76): if the slot holds
a live promise, resolve it and null the slot; otherwise do nothing. -/
def releaseContextForSocketAndOpId (s : RegistryState) (socketId : Nat)
    (opId : String) : RegistryState :=
  match s.slots (contextKey socketId opId) with
  | some h =>
      { s with
        resolved := fun i => if i = h then s.resolved i + 1 else s.resolved i,
        slots := fun k => if k = contextKey socketId opId then none else s.slots k }
  | none => s

/-- Embeds `addContextForSocketAndOpId` (lines 78-84): release any existing
handle for the key, create a fresh deferred, attach the context to it, store
it under the key, and return it. -/
def addContextForSocketAndOpId (s : RegistryState) (context : String)
    (socketId : Nat) (opId : String) : RegistryState × Nat :=
  let s1 := releaseContextForSocketAndOpId s socketId opId
  let h := s1.nextHandle
  ({ slots := fun k => if k = contextKey socketId opId then some h else s1.slots k,
     resolved := s1.resolved,
     contextOf := fun i => if i = h then some context else s1.contextOf i,
     nextHandle := h + 1 }, h)

/-- Well-formedness invariant of the registry: every handle stored in a slot
is unresolved and below the fresh-handle supply, no handle was ever resolved
more than once, handles not yet issued are unresolved, and no handle sits in
two distinct slots. -/
def RegistryWF (s : RegistryState) : Prop :=
  (∀ k h, s.slots k = some h → s.resolved h = 0 ∧ h < s.nextHandle) ∧
  (∀ h, s.resolved h ≤ 1) ∧
  (∀ h, s.nextHandle ≤ h → s.resolved h = 0) ∧
  (∀ k1 k2 h, s.slots k1 = some h → s.slots k2 = some h → k1 = k2)

theorem initRegistry_WF : RegistryWF initRegistry := by
  refine ⟨fun k h hk => by simp [initRegistry] at hk, fun h => by simp [initRegistry],
    fun h _ => by simp [initRegistry],
    fun k1 k2 h h1 h2 => by simp [initRegistry] at h1⟩

theorem release_nextHandle (s : RegistryState) (i : Nat) (o : String) :
    (releaseContextForSocketAndOpId s i o).nextHandle = s.nextHandle := by
  unfold releaseContextForSocketAndOpId
  cases s.slots (contextKey i o) <;> rfl

theorem release_preserves_WF (s : RegistryState) (i : Nat) (o : String)
    (hWF : RegistryWF s) : RegistryWF (releaseContextForSocketAndOpId s i o) := by
  obtain ⟨hLive, hOnce, hFresh, hInj⟩ := hWF
  unfold releaseContextForSocketAndOpId
  cases hslot : s.slots (contextKey i o) with
  | none => exact ⟨hLive, hOnce, hFresh, hInj⟩
  | some h0 =>
    refine ⟨?_, ?_, ?_, ?_⟩
    · intro k h hk
      simp only at hk
      by_cases hkk : k = contextKey i o
      · simp [hkk] at hk
      · simp only [if_neg hkk] at hk
        have := hLive k h hk
        refine ⟨?_, this.2⟩
        by_cases hh : h = h0
        · exact absurd (hInj k (contextKey i o) h0 (hh ▸ hk) hslot) hkk
        · simpa [hh] using this.1
    · intro h
      by_cases hh : h = h0
      · have := (hLive (contextKey i o) h0 hslot).1
        simp [hh, this]
      · simpa [hh] using hOnce h
    · intro h hle
      simp only at hle ⊢
      have hlt := (hLive (contextKey i o) h0 hslot).2
      have hne : h ≠ h0 := fun he => absurd (he ▸ hle) (Nat.not_le_of_lt hlt)
      simpa [hne] using hFresh h hle
    · intro k1 k2 h h1 h2
      simp only at h1 h2
      by_cases hk1 : k1 = contextKey i o
      · simp [hk1] at h1
      · by_cases hk2 : k2 = contextKey i o
        · simp [hk2] at h2
        · simp only [if_neg hk1] at h1
          simp only [if_neg hk2] at h2
          exact hInj k1 k2 h h1 h2

theorem addContext_preserves_WF (s : RegistryState) (c : String) (i : Nat)
    (o : String) (hWF : RegistryWF s) :
    RegistryWF (addContextForSocketAndOpId s c i o).1 := by
  have hWF1 := release_preserves_WF s i o hWF
  obtain ⟨hLive, hOnce, hFresh, hInj⟩ := hWF1
  set s1 := releaseContextForSocketAndOpId s i o with hs1
  refine ⟨?_, hOnce, ?_, ?_⟩
  · intro k h hk
    simp only [addContextForSocketAndOpId] at hk
    by_cases hkk : k = contextKey i o
    · simp only [if_pos hkk, Option.some.injEq] at hk
      subst hk
      exact ⟨hFresh _ (Nat.le_refl _), Nat.lt_succ_self _⟩
    · simp only [if_neg hkk] at hk
      have := hLive k h hk
      exact ⟨this.1, Nat.lt_succ_of_lt this.2⟩
  · intro h hle
    simp only [addContextForSocketAndOpId] at hle ⊢
    exact hFresh h (Nat.le_of_succ_le hle)
  · intro k1 k2 h hk1 hk2
    simp only [addContextForSocketAndOpId] at hk1 hk2
    by_cases h1 : k1 = contextKey i o
    · by_cases h2 : k2 = contextKey i o
      · rw [h1, h2]
      · simp only [if_pos h1, Option.some.injEq] at hk1
        simp only [if_neg h2] at hk2
        subst hk1
        exact absurd (hLive k2 _ hk2).2 (Nat.lt_irrefl _)
    · by_cases h2 : k2 = contextKey i o
      · simp only [if_neg h1] at hk1
        simp only [if_pos h2, Option.some.injEq] at hk2
        subst hk2
        exact absurd (hLive k1 _ hk1).2 (Nat.lt_irrefl _)
      · simp only [if_neg h1] at hk1
        simp only [if_neg h2] at hk2
        exact hInj k1 k2 h hk1 hk2

/-- Helper: the slot a release acted on is empty afterwards. -/
theorem release_slot_none (s : RegistryState) (i : Nat) (o : String) :
    (releaseContextForSocketAndOpId s i o).slots (contextKey i o) = none := by
  unfold releaseContextForSocketAndOpId
  cases hslot : s.slots (contextKey i o) with
  | none => exact hslot
  | some h0 => simp

/-- Helper: releasing a key whose slot holds no live handle changes nothing. -/
theorem release_of_none (s : RegistryState) (i : Nat) (o : String)
    (hnone : s.slots (contextKey i o) = none) :
    releaseContextForSocketAndOpId s i o = s := by
  unfold releaseContextForSocketAndOpId
  rw [hnone]

/-- A concrete well-formed registry holding one live handle (handle 0 under
key `1|a`), used to instantiate the registry theorems. -/
def exampleRegistry : RegistryState where
  slots := fun k => if k = "1|a" then some 0 else none
  resolved := fun _ => 0
  contextOf := fun i => if i = 0 then some "ctx0" else none
  nextHandle := 1

theorem exampleRegistry_WF : RegistryWF exampleRegistry := by
  refine ⟨?_, ?_, ?_, ?_⟩
  · intro k h hk
    simp only [exampleRegistry] at hk
    by_cases hkk : k = "1|a"
    · simp only [if_pos hkk, Option.some.injEq] at hk
      subst hk
      simp [exampleRegistry]
    · simp [hkk] at hk
  · intro h
    simp [exampleRegistry]
  · intro h _
    simp [exampleRegistry]
  · intro k1 k2 h h1 h2
    simp only [exampleRegistry] at h1 h2
    by_cases hk1 : k1 = "1|a"
    · by_cases hk2 : k2 = "1|a"
      · rw [hk1, hk2]
      · simp [hk2] at h2
    · simp [hk1] at h1

/-- C1: in any well-formed registry state, acquiring a context handle for a
key that already holds a live handle resolves the old handle exactly once
(its resolve count goes from 0 to 1, and no other handle's count changes)
before the fresh handle is stored under the key; the result is well-formed
again, so the retired handle can never be resolved a second time. -/
theorem addContext_releases_old_exactly_once (s : RegistryState) (c : String)
    (i : Nat) (o : String) (hWF : RegistryWF s) (hOld : Nat)
    (hSlot : s.slots (contextKey i o) = some hOld) :
    s.resolved hOld = 0 ∧
    (addContextForSocketAndOpId s c i o).1.resolved hOld = 1 ∧
    (addContextForSocketAndOpId s c i o).1.slots (contextKey i o) =
      some (addContextForSocketAndOpId s c i o).2 ∧
    (addContextForSocketAndOpId s c i o).2 ≠ hOld ∧
    (∀ h, h ≠ hOld →
      (addContextForSocketAndOpId s c i o).1.resolved h = s.resolved h) ∧
    RegistryWF (addContextForSocketAndOpId s c i o).1 := by
  obtain ⟨hLive, hOnce, hFresh, hInj⟩ := hWF
  have hOld0 : s.resolved hOld = 0 := (hLive _ _ hSlot).1
  have hOldLt : hOld < s.nextHandle := (hLive _ _ hSlot).2
  refine ⟨hOld0, ?_, ?_, ?_, ?_, addContext_preserves_WF s c i o ⟨hLive, hOnce, hFresh, hInj⟩⟩
  · simp [addContextForSocketAndOpId, releaseContextForSocketAndOpId, hSlot, hOld0]
  · simp [addContextForSocketAndOpId]
  · have : (addContextForSocketAndOpId s c i o).2 = s.nextHandle := by
      simp [addContextForSocketAndOpId, release_nextHandle]
    rw [this]
    exact fun he => absurd (he ▸ hOldLt) (Nat.lt_irrefl _)
  · intro h hne
    simp [addContextForSocketAndOpId, releaseContextForSocketAndOpId, hSlot, hne]

/-- C1 witness: instantiating the acquisition theorem on the concrete
registry that holds handle 0 under key `1|a`. -/
theorem addContext_releases_old_exactly_once_witness :
    (addContextForSocketAndOpId exampleRegistry "ctx1" 1 "a").1.resolved 0 = 1 :=
  (addContext_releases_old_exactly_once exampleRegistry "ctx1" 1 "a"
    exampleRegistry_WF 0 (by decide)).2.1

/-- C4: releasing a (socket, opId) key twice leaves the registry exactly as
releasing it once does, and releasing a key with no live handle (never
created, or already released) is a no-op; release is total, so no error is
ever raised. -/
theorem release_idempotent (s : RegistryState) (i : Nat) (o : String) :
    releaseContextForSocketAndOpId (releaseContextForSocketAndOpId s i o) i o =
      releaseContextForSocketAndOpId s i o ∧
    (s.slots (contextKey i o) = none → releaseContextForSocketAndOpId s i o = s) := by
  exact ⟨release_of_none _ i o (release_slot_none s i o), release_of_none s i o⟩

/-- C4 witness: the release theorem instantiated on the concrete registry at
an occupied key and at an absent key. -/
theorem release_idempotent_witness :
    releaseContextForSocketAndOpId
        (releaseContextForSocketAndOpId exampleRegistry 1 "a") 1 "a" =
      releaseContextForSocketAndOpId exampleRegistry 1 "a" ∧
    releaseContextForSocketAndOpId exampleRegistry 2 "b" = exampleRegistry :=
  ⟨(release_idempotent exampleRegistry 1 "a").1,
   (release_idempotent exampleRegistry 2 "b").2 (by decide)⟩

/-! ## Pseudo-Response Bridge

Embeds the caching discipline of `reqResFromSocket` (subscriptions.ts lines
99-131).  The body reads `socket['__postgraphileRes']`; when it is unset it
creates a pseudo-response, invokes `applyMiddleware` (an `await`, hence a
suspension point), and only after that await completes does it store the
pseudo-response back on the socket.  The machine below keeps, per socket,
the cached-response flag and a count of middleware-chain executions, and
runs two concurrent calls each through the two atomic phases the awaits of
the source delimit. -/

/-- Program counter of one in-flight `reqResFromSocket` call: it has not
started, it is suspended inside `await applyMiddleware(...)`, or it has
returned. -/
inductive CallPhase where
  | start
  | awaitingMiddleware
  | done
deriving DecidableEq

/-- One atomic phase of a `reqResFromSocket` call, given the socket's cached
flag and run count: from `start`, a cached response returns immediately
(lines 104, 130) while an empty cache invokes the middleware chain and
suspends (lines 110-127); from `awaitingMiddleware`, the await completes and
the response is cached (line 128). -/
def stepCall (cached : Bool) (runs : Nat) (p : CallPhase) :
    Bool × Nat × CallPhase :=
  match p with
  | .start =>
      if cached then (cached, runs, .done)
      else (cached, runs + 1, .awaitingMiddleware)
  | .awaitingMiddleware => (true, runs, .done)
  | .done => (cached, runs, .done)

/-- Two concurrent `reqResFromSocket` calls on one socket. -/
structure BridgeState where
  cachedRes : Bool
  middlewareRuns : Nat
  phase0 : CallPhase
  phase1 : CallPhase
deriving DecidableEq

/-- Advance the selected call (`false` for the first, `true` for the second)
by one atomic phase. -/
def stepBridge (s : BridgeState) (t : Bool) : BridgeState :=
  if t then
    match stepCall s.cachedRes s.middlewareRuns s.phase1 with
    | (c, r, p) => { s with cachedRes := c, middlewareRuns := r, phase1 := p }
  else
    match stepCall s.cachedRes s.middlewareRuns s.phase0 with
    | (c, r, p) => { s with cachedRes := c, middlewareRuns := r, phase0 := p }

/-- Run a schedule (a list of call selections) from a state. -/
def runSchedule (s : BridgeState) : List Bool → BridgeState
  | [] => s
  | t :: ts => runSchedule (stepBridge s t) ts

/-- Fresh socket: nothing cached, middleware never run, both calls pending. -/
def initBridge : BridgeState where
  cachedRes := false
  middlewareRuns := 0
  phase0 := .start
  phase1 := .start

/-- C2 counterexample: two `reqResFromSocket` calls on the same socket that
overlap — the second call starts while the first is still suspended in its
middleware await — each find `__postgraphileRes` unset and each run the
middleware chain, so the chain executes twice for the socket, not once.
There is no in-flight middleware promise to await: the source caches the
pseudo-response only after its middleware pass completes. -/
theorem middleware_reruns_on_concurrent_calls :
    (runSchedule initBridge [false, true]).middlewareRuns = 2 ∧
    (runSchedule initBridge [false, true]).middlewareRuns ≠ 1 := by
  decide

/-- One `reqResFromSocket` call run from start to return with no
interleaving, acting on the socket's (cached flag, middleware-run count):
a cached response is returned as is; otherwise the middleware chain runs
once and the response is cached. -/
def reqResFromSocketOnce : Bool × Nat → Bool × Nat
  | (false, runs) => (true, runs + 1)
  | (true, runs) => (true, runs)

/-- A sequence of non-overlapping `reqResFromSocket` calls on one socket. -/
def seqCalls : Nat → Bool × Nat → Bool × Nat
  | 0, s => s
  | n + 1, s => seqCalls n (reqResFromSocketOnce s)

theorem seqCalls_cached (n : Nat) (r : Nat) : seqCalls n (true, r) = (true, r) := by
  induction n with
  | zero => rfl
  | succ n ih => simpa [seqCalls, reqResFromSocketOnce] using ih

/-- C2 amended: on a fresh socket the middleware chain executes exactly once
across any positive number of `reqResFromSocket` calls, provided each call
completes before the next begins (the first call runs the chain and caches
the pseudo-response; every later call hits the cache); in the two-call
machine, either serial order likewise yields exactly one run.  Overlapping
calls are exempt, as the counterexample shows. -/
theorem middleware_once_for_sequential_calls (n : Nat) (hn : 0 < n) :
    (seqCalls n (false, 0)).2 = 1 ∧
    (runSchedule initBridge [false, false, true, true]).middlewareRuns = 1 ∧
    (runSchedule initBridge [true, true, false, false]).middlewareRuns = 1 := by
  refine ⟨?_, by decide, by decide⟩
  cases n with
  | zero => exact absurd hn (Nat.lt_irrefl 0)
  | succ m => simp [seqCalls, reqResFromSocketOnce, seqCalls_cached]

/-- C2 amended witness: three sequential calls run the chain exactly once. -/
theorem middleware_once_for_sequential_calls_witness :
    (seqCalls 3 (false, 0)).2 = 1 :=
  (middleware_once_for_sequential_calls 3 (by decide)).1

/-! ## Connection Handler header logic

Embeds `lowerCaseKeys` (lines 24-29) and the authorization backfill of
`onConnect` (lines 183-196).  A JavaScript object is modelled as the list of
its property writes in order; a property read returns the value of the last
write of that key.  JavaScript truthiness on a header value makes both a
missing property (`undefined`) and the empty string falsy. -/

/-- Read a property: last write wins (object assignment semantics). -/
def objGet (obj : List (String × String)) (key : String) : Option String :=
  (obj.reverse.find? (fun kv => kv.1 == key)).map (fun kv => kv.2)

/-- Write a property. -/
def objSet (obj : List (String × String)) (key v : String) :
    List (String × String) :=
  obj ++ [(key, v)]

/-- JavaScript truthiness of a string-valued property read: `undefined` and
the empty string are falsy. -/
def jsTruthy : Option String → Bool
  | none => false
  | some s => s != ""

/-- JavaScript `String.prototype.toLowerCase`, modelled character-wise. -/
def toLowerCase (s : String) : String :=
  String.mk (s.data.map Char.toLower)

/-- Embeds `lowerCaseKeys` (lines 24-29): rebuild the object writing each
value under the lowercased key, in the original key order (later writes win
on collision, as in the source's `reduce`). -/
def lowerCaseKeys (obj : List (String × String)) : List (String × String) :=
  obj.map (fun kv => (toLowerCase kv.1, kv.2))

/-- Embeds the header backfill of `onConnect` (lines 183-196): if
`request.headers.authorization` is falsy and the lowercase-normalized
connection parameters (`normalizedConnectionParams` in the source) hold a
truthy `authorization` value, assign that value to the request's
`authorization` header; otherwise leave the headers as they are. -/
def onConnectAuthHeaders (connectionParams headers : List (String × String)) :
    List (String × String) :=
  if !jsTruthy (objGet headers "authorization") &&
      jsTruthy (objGet (lowerCaseKeys connectionParams) "authorization") then
    objSet headers "authorization"
      ((objGet (lowerCaseKeys connectionParams) "authorization").getD "")
  else headers

theorem objGet_objSet_same (obj : List (String × String)) (k v : String) :
    objGet (objSet obj k v) k = some v := by
  simp [objGet, objSet, List.find?]

theorem objGet_objSet_other (obj : List (String × String)) (k v q : String)
    (hq : q ≠ k) : objGet (objSet obj k v) q = objGet obj q := by
  have hkq : (k == q) = false :=
    beq_eq_false_iff_ne.mpr (fun he => hq he.symm)
  simp [objGet, objSet, List.find?, hkq]

/-- C3 counterexample: a request whose `authorization` header is present but
empty.  The claim says a present header is kept unchanged regardless of the
connection parameters, but the source's `!request.headers.authorization`
truthiness test treats the empty string like a missing header, so the
connection-parameter value overwrites it. -/
theorem authorization_present_but_empty_overridden :
    objGet [("authorization", "")] "authorization" = some "" ∧
    objGet (onConnectAuthHeaders [("Authorization", "X")]
      [("authorization", "")]) "authorization" ≠ some "" ∧
    objGet (onConnectAuthHeaders [("Authorization", "X")]
      [("authorization", "")]) "authorization" = some "X" := by
  refine ⟨rfl, ?_, ?_⟩ <;> decide

/-- C3 amended: if the request's `authorization` header is falsy (missing or
empty) and the lowercase-normalized connection parameters hold a truthy
`authorization` entry, the resulting `authorization` header is that
connection-parameter value; if the request already has a truthy (non-empty)
`authorization` header, the headers are unchanged regardless of the
connection parameters; and no header other than `authorization` is ever
backfilled from connection parameters. -/
theorem onConnect_authorization_precedence
    (params headers : List (String × String)) :
    (jsTruthy (objGet headers "authorization") = false →
      jsTruthy (objGet (lowerCaseKeys params) "authorization") = true →
      objGet (onConnectAuthHeaders params headers) "authorization" =
        objGet (lowerCaseKeys params) "authorization") ∧
    (jsTruthy (objGet headers "authorization") = true →
      onConnectAuthHeaders params headers = headers) ∧
    (∀ k, k ≠ "authorization" →
      objGet (onConnectAuthHeaders params headers) k = objGet headers k) := by
  refine ⟨?_, ?_, ?_⟩
  · intro hF hT
    cases hx : objGet (lowerCaseKeys params) "authorization" with
    | none => rw [hx] at hT; simp [jsTruthy] at hT
    | some s =>
      have hcond : (!jsTruthy (objGet headers "authorization") &&
          jsTruthy (objGet (lowerCaseKeys params) "authorization")) = true := by
        rw [hF, hT]; rfl
      unfold onConnectAuthHeaders
      rw [if_pos hcond, hx, Option.getD_some]
      exact objGet_objSet_same headers "authorization" s
  · intro hT
    have hcond : ¬((!jsTruthy (objGet headers "authorization") &&
        jsTruthy (objGet (lowerCaseKeys params) "authorization")) = true) := by
      rw [hT]; simp
    unfold onConnectAuthHeaders
    rw [if_neg hcond]
  · intro k hk
    unfold onConnectAuthHeaders
    by_cases hc : (!jsTruthy (objGet headers "authorization") &&
        jsTruthy (objGet (lowerCaseKeys params) "authorization")) = true
    · rw [if_pos hc]
      exact objGet_objSet_other headers "authorization" _ k hk
    · rw [if_neg hc]

/-- C3 amended witness: a request without an `authorization` header gains
the connection-parameter token after key normalization. -/
theorem onConnect_authorization_precedence_witness :
    objGet (onConnectAuthHeaders [("Authorization", "X")] [("host", "h")])
        "authorization" =
      objGet (lowerCaseKeys [("Authorization", "X")]) "authorization" :=
  (onConnect_authorization_precedence [("Authorization", "X")]
    [("host", "h")]).1 (by decide) (by decide)

/-! ## Operation Handler: dynamic validation aggregation

Embeds the dynamic-validation tail of `onOperation` (lines 244-267). -/

/-- An error returned by the external validator: only its message matters
here. -/
structure GraphQLError where
  message : String
deriving DecidableEq

/-- The aggregate error thrown on validation failure: an `Error` whose
message is built from the individual messages and whose `errors` property
carries the underlying list. -/
structure AggregateError where
  message : String
  errors : List GraphQLError
deriving DecidableEq

/-- Embeds lines 252-267 of `onOperation`: when the dynamic
validation-rules hook returned a non-empty rule list, validate the query
and, if any validation errors result, throw a single aggregate error whose
message is `Query validation failed: ` plus the newline-joined individual
messages and whose `errors` payload is the full list; otherwise the
operation proceeds (returns the final parameters, modelled as success). -/
def onOperationValidation {Rule : Type} (moreValidationRules : List Rule)
    (validateQuery : List Rule → List GraphQLError) :
    Except AggregateError Unit :=
  if moreValidationRules.length ≠ 0 then
    let validationErrors := validateQuery moreValidationRules
    if validationErrors.length ≠ 0 then
      Except.error
        { message := "Query validation failed: \n" ++
            String.intercalate "\n" (validationErrors.map (fun e => e.message)),
          errors := validationErrors }
    else Except.ok ()
  else Except.ok ()

/-- C5: whenever the dynamic validation rules exist and produce at least one
validation error, the operation fails with exactly one aggregate error whose
message is all individual messages newline-joined after the fixed prefix and
whose payload is the full list of underlying validation errors. -/
theorem onOperation_validation_aggregates {Rule : Type}
    (moreValidationRules : List Rule)
    (validateQuery : List Rule → List GraphQLError)
    (hRules : moreValidationRules.length ≠ 0)
    (hErrs : (validateQuery moreValidationRules).length ≠ 0) :
    onOperationValidation moreValidationRules validateQuery =
      Except.error
        { message := "Query validation failed: \n" ++
            String.intercalate "\n"
              ((validateQuery moreValidationRules).map (fun e => e.message)),
          errors := validateQuery moreValidationRules } := by
  unfold onOperationValidation
  rw [if_pos hRules]
  simp only
  rw [if_pos hErrs]

/-- C5 witness: two rejecting rules produce one error carrying both messages
newline-joined and the full underlying list. -/
theorem onOperation_validation_aggregates_witness :
    onOperationValidation ["ruleA", "ruleB"]
        (fun _ => [⟨"first failure"⟩, ⟨"second failure"⟩]) =
      Except.error
        { message := "Query validation failed: \n" ++
            String.intercalate "\n"
              (([⟨"first failure"⟩, ⟨"second failure"⟩] :
                List GraphQLError).map (fun e => e.message)),
          errors := [⟨"first failure"⟩, ⟨"second failure"⟩] } :=
  onOperation_validation_aggregates ["ruleA", "ruleB"]
    (fun _ => [⟨"first failure"⟩, ⟨"second failure"⟩]) (by decide) (by decide)

/-! ## Pseudo-response `writeHead` override

Embeds the overridden `writeHead` (lines 112-126).  The override's only
observable effects are an error log and a socket close; it never writes any
response data. -/

/-- Observable effect of one `writeHead` invocation. -/
structure WriteHeadEffect where
  loggedError : Option String
  socketClosed : Bool
  dataWritten : Bool
deriving DecidableEq

/-- Embeds the override body (lines 112-126): a truthy status above 200 logs
and closes the socket; otherwise truthy headers log and close the socket;
otherwise nothing happens.  Nothing is ever written. -/
def writeHead (statusCode : Nat)
    (headers : Option (List (String × String))) : WriteHeadEffect :=
  if statusCode ≠ 0 ∧ 200 < statusCode then
    { loggedError := some ("Something used \x27writeHead\x27 to write a \x27" ++
        toString statusCode ++
        "\x27 error for websockets - check the middleware you\x27re passing!"),
      socketClosed := true,
      dataWritten := false }
  else if headers.isSome then
    { loggedError := some ("Passing headers to \x27writeHead\x27 is not " ++
        "supported with websockets currently - check the middleware " ++
        "you\x27re passing"),
      socketClosed := true,
      dataWritten := false }
  else
    { loggedError := none, socketClosed := false, dataWritten := false }

/-- C6: a `writeHead` call with a status above 200 logs an error and closes
the socket; otherwise, a call passing response headers logs an error and
closes the socket. -/
theorem writeHead_misuse_closes_socket (statusCode : Nat)
    (headers : Option (List (String × String))) :
    (200 < statusCode →
      (writeHead statusCode headers).socketClosed = true ∧
      (writeHead statusCode headers).loggedError.isSome = true) ∧
    (statusCode ≤ 200 → headers.isSome = true →
      (writeHead statusCode headers).socketClosed = true ∧
      (writeHead statusCode headers).loggedError.isSome = true) := by
  constructor
  · intro hgt
    have hcond : statusCode ≠ 0 ∧ 200 < statusCode :=
      ⟨Nat.pos_iff_ne_zero.mp (Nat.lt_trans (by decide) hgt), hgt⟩
    unfold writeHead
    rw [if_pos hcond]
    exact ⟨rfl, rfl⟩
  · intro hle hsome
    have hcond : ¬(statusCode ≠ 0 ∧ 200 < statusCode) :=
      fun h => absurd hle (Nat.not_le_of_lt h.2)
    unfold writeHead
    rw [if_neg hcond, if_pos hsome]
    exact ⟨rfl, rfl⟩

/-- C6 witness: status 500, and status 200 with headers, both close the
socket with a logged error. -/
theorem writeHead_misuse_closes_socket_witness :
    (writeHead 500 none).socketClosed = true ∧
    (writeHead 200 (some [("x", "y")])).socketClosed = true :=
  ⟨((writeHead_misuse_closes_socket 500 none).1 (by decide)).1,
   ((writeHead_misuse_closes_socket 200 (some [("x", "y")])).2
      (by decide) (by decide)).1⟩

/-- C10: a `writeHead` call with a status of 200 or lower (0, the model of a
falsy status, included) and no headers is a no-op: the socket is not closed,
nothing is logged, and no data is written. -/
theorem writeHead_success_noop (statusCode : Nat) (hle : statusCode ≤ 200) :
    writeHead statusCode none =
      { loggedError := none, socketClosed := false, dataWritten := false } := by
  have hcond : ¬(statusCode ≠ 0 ∧ 200 < statusCode) :=
    fun h => absurd hle (Nat.not_le_of_lt h.2)
  unfold writeHead
  rw [if_neg hcond]
  rfl

/-- C10 witness: writing a bare 200 status leaves every observable effect
off. -/
theorem writeHead_success_noop_witness :
    writeHead 200 none =
      { loggedError := none, socketClosed := false, dataWritten := false } :=
  writeHead_success_noop 200 (by decide)

/-! ## Upgrade Router

Embeds the route configuration (line 62) and the `upgrade` listener
(lines 151-160). -/

/-- An HTTP upgrade request as the listener sees it: `pathname` is what
`parseUrl` extracted (`none` when absent, defaulted to the empty string by
the destructuring on line 153). -/
structure UpgradeRequest where
  pathname : Option String
deriving DecidableEq

/-- Outcome of one upgrade attempt: either the socket-protocol handshake ran
and a `connection` event was emitted carrying the new socket and the
original request (lines 156-158), or the event was left untouched for other
upgrade handlers. -/
inductive UpgradeOutcome where
  | connectionEmitted (req : UpgradeRequest)
  | ignored
deriving DecidableEq

/-- Embeds line 62: `options.graphqlRoute || '/graphql'` (a falsy configured
route falls back to the default). -/
def graphqlRouteOf (optRoute : Option String) : String :=
  match optRoute with
  | some r => if r = "" then "/graphql" else r
  | none => "/graphql"

/-- Embeds the `upgrade` listener body (lines 151-160): compare the parsed
pathname (empty when missing) with the configured route; on a match perform
the handshake and emit the connection event with the original request, else
do nothing. -/
def onUpgrade (graphqlRoute : String) (req : UpgradeRequest) : UpgradeOutcome :=
  if req.pathname.getD "" = graphqlRoute then .connectionEmitted req
  else .ignored

/-- C7: an upgrade whose request path equals the configured subscription
route (default `/graphql`) gets the handshake and a connection event
carrying the original request; any other path is ignored and left for other
upgrade handlers. -/
theorem upgrade_path_filtering (optRoute : Option String) (req : UpgradeRequest) :
    (req.pathname.getD "" = graphqlRouteOf optRoute →
      onUpgrade (graphqlRouteOf optRoute) req = .connectionEmitted req) ∧
    (req.pathname.getD "" ≠ graphqlRouteOf optRoute →
      onUpgrade (graphqlRouteOf optRoute) req = .ignored) ∧
    graphqlRouteOf none = "/graphql" := by
  refine ⟨fun h => ?_, fun h => ?_, rfl⟩
  · unfold onUpgrade
    rw [if_pos h]
  · unfold onUpgrade
    rw [if_neg h]

/-- C7 witness: under the default configuration, `/graphql` is accepted and
`/other` is ignored. -/
theorem upgrade_path_filtering_witness :
    onUpgrade (graphqlRouteOf none) ⟨some "/graphql"⟩ =
      .connectionEmitted ⟨some "/graphql"⟩ ∧
    onUpgrade (graphqlRouteOf none) ⟨some "/other"⟩ = .ignored :=
  ⟨(upgrade_path_filtering none ⟨some "/graphql"⟩).1 (by decide),
   (upgrade_path_filtering none ⟨some "/other"⟩).2.1 (by decide)⟩

/-! ## Idempotent enhancement

Embeds the `__postgraphileSubscriptionsEnabled` guard of
`enhanceHttpServerWithSubscriptions` (lines 47-54) together with its two
installation side effects: attaching the upgrade listener (line 151) and
creating the subscription server (line 165). -/

/-- Observable per-server state the enhancement touches. -/
structure HttpServerState where
  postgraphileSubscriptionsEnabled : Bool
  upgradeListeners : Nat
  subscriptionServers : Nat
deriving DecidableEq

/-- Embeds `enhanceHttpServerWithSubscriptions` at the server-state level
(lines 51-54, 151, 165): return immediately when the marker flag is set,
otherwise set it and install one upgrade listener and one subscription
server. -/
def enhanceHttpServerWithSubscriptions (s : HttpServerState) : HttpServerState :=
  if s.postgraphileSubscriptionsEnabled then s
  else
    { postgraphileSubscriptionsEnabled := true,
      upgradeListeners := s.upgradeListeners + 1,
      subscriptionServers := s.subscriptionServers + 1 }

/-- C8: the first enhancement call marks the server, and enhancing an
already-enhanced server is a no-op — re-invocation changes nothing, so no
listener or subscription server is ever installed twice. -/
theorem enhance_idempotent (s : HttpServerState) :
    (enhanceHttpServerWithSubscriptions s).postgraphileSubscriptionsEnabled = true ∧
    enhanceHttpServerWithSubscriptions (enhanceHttpServerWithSubscriptions s) =
      enhanceHttpServerWithSubscriptions s := by
  unfold enhanceHttpServerWithSubscriptions
  by_cases h : s.postgraphileSubscriptionsEnabled
  · rw [if_pos h]
    exact ⟨h, by rw [if_pos h]⟩
  · rw [if_neg h]
    exact ⟨rfl, rfl⟩

/-- C8 witness: enhancing a fresh server twice equals enhancing it once. -/
theorem enhance_idempotent_witness :
    enhanceHttpServerWithSubscriptions
        (enhanceHttpServerWithSubscriptions ⟨false, 0, 0⟩) =
      enhanceHttpServerWithSubscriptions ⟨false, 0, 0⟩ :=
  (enhance_idempotent ⟨false, 0, 0⟩).2

/-! ## Websocket `execute` stub

Embeds the `execute` option passed to `SubscriptionServer.create`
(lines 169-171). -/

/-- Embeds the installed `execute` function: it ignores its input and
unconditionally throws. -/
def wsExecute {Args Result : Type} (_args : Args) : Except String Result :=
  Except.error "Only subscriptions are allowed over websocket transport"

/-- C9: the `execute` installed in the subscription server fails on every
input with the fixed only-subscriptions error and never produces a
result. -/
theorem wsExecute_always_throws {Args Result : Type} (args : Args) :
    @wsExecute Args Result args =
      Except.error "Only subscriptions are allowed over websocket transport" ∧
    ∀ r : Result, @wsExecute Args Result args ≠ Except.ok r := by
  exact ⟨rfl, fun r h => Except.noConfusion h⟩

/-- C9 witness: a concrete non-subscription execution attempt throws. -/
theorem wsExecute_always_throws_witness :
    @wsExecute String Nat "query getX" =
      Except.error "Only subscriptions are allowed over websocket transport" :=
  (@wsExecute_always_throws String Nat "query getX").1

end Subscriptions
